import Mathlib

/-!
Shallow embedding of the statistical core of the personal-finance-analyzer
repository: `FinancialCalculator` (metrics aggregation and category
breakdown) and `PatternDetector` (recurring charges, anomalies, spending
spikes, trends, and orchestration).

Modelling conventions, kept uniform throughout:

* JS numbers are modelled as exact rationals (`ℚ`); IEEE-754 rounding is not
  modelled.  At the single site where the source can produce a non-finite
  number (the category percentage `(total / totalSpending) * 100`, whose
  denominator may be zero) the result type is `JsNum`, which represents
  `NaN` and the two infinities explicitly with JS division semantics.
* A JS `Date` is modelled by the three observations the embedded code makes
  of it: `getTime()` (milliseconds), `getFullYear()`, `getMonth()`
  (0-based).  The calendar relation between the fields is irrelevant to the
  embedded code and is left unconstrained.
* A JS `Map` built by repeated `get`/`set` inside `forEach` preserves key
  insertion order; it is modelled as an insertion-ordered association list
  (`upsert`, `groupByKeyList`, `addAt`).  The spike detector's month keys
  `` `${year}-${month}` `` and the trend detector's keys
  `` `${year}-${padded month}` `` are modelled as `(year, month)` pairs;
  for real dates (4-digit years, months 0–11) the string keys and the pairs
  are in bijection, and `localeCompare` on the padded trend keys coincides
  with lexicographic order on the pairs.
* JS `Array.prototype.sort` is stable (V8); it is modelled by `jsSort`,
  a stable insertion sort, with `le a b` meaning the comparator returns
  ≤ 0 on `(a, b)`: for the consistent comparators in scope the stable
  sorted permutation is unique, so any stable sort is the faithful model.
* `Math.sqrt` has no rational counterpart; the anomaly test
  `amount > mean + 3·stdDev` is embedded as the equivalent rational
  condition `amount - mean > 0 ∧ (amount - mean)² > 9·variance`
  (equivalent because `stdDev = √variance ≥ 0`).
* Display strings interpolate dynamic data into fixed templates via
  `toFixed`; the embedding records the interpolated data (`PatternDescr`)
  rather than the formatted text.
-/

/-- JsNum models the values a JS floating-point expression can take where
non-finite results are possible: a finite (rational) value, `NaN`, or a
signed infinity. -/
inductive JsNum where
  | fin (q : ℚ)
  | nan
  | posInf
  | negInf
deriving DecidableEq, Repr

/-- jsDivMul100 embeds the JS expression `(total / ts) * 100`: division by
zero yields `NaN` (for `0 / 0`) or a signed infinity, and multiplying a
non-finite value by 100 leaves it unchanged. -/
def jsDivMul100 (total ts : ℚ) : JsNum :=
  if ts = 0 then
    if total = 0 then JsNum.nan
    else if 0 < total then JsNum.posInf
    else JsNum.negInf
  else JsNum.fin (total / ts * 100)

/-- Severity levels of a detected pattern (`"low" | "medium" | "high"`). -/
inductive Severity where
  | low
  | medium
  | high
deriving DecidableEq, Repr

/-- PatternType enumerates the four detector outputs. -/
inductive PatternType where
  | recurring_charge
  | spending_spike
  | anomaly
  | trend
deriving DecidableEq, Repr

/-- PatternDescr models the data interpolated into each detector's display
string (the fixed template text and `toFixed` formatting are
presentational and not modelled). -/
inductive PatternDescr where
  | recurring (desc : String) (avgAmount : ℚ)
  | spike (category : String) (max avg : ℚ)
  | anomalyAt (desc : String) (amount : ℚ)
  | trendDir (direction : String) (percentMagnitude : JsNum)
deriving DecidableEq, Repr

/-- DateT models a JS `Date` by the observations the embedded code makes of
it: `getTime()` in milliseconds, `getFullYear()`, and 0-based
`getMonth()`. -/
structure DateT where
  time : ℤ
  year : ℤ
  month : ℤ
deriving DecidableEq, Repr

/-- CategorizedTransaction mirrors the `CategorizedTransaction` record:
date, description, non-negative magnitude `amount`, income flag, category
(a member of the closed `SpendingCategory` string set), and the
categorizer's confidence (passed through, unused by the core). -/
structure CategorizedTransaction where
  date : DateT
  description : String
  amount : ℚ
  isIncome : Bool
  category : String
  confidence : ℚ
deriving DecidableEq, Repr

/-- DetectedPattern mirrors the `DetectedPattern` record. -/
structure DetectedPattern where
  type : PatternType
  descr : PatternDescr
  transactions : List CategorizedTransaction
  severity : Severity
  impact : ℚ
deriving DecidableEq, Repr

/-- CategoryBreakdown mirrors the `CategoryBreakdown` record; `percentage`
is a `JsNum` because the source divides by a possibly-zero total. -/
structure CategoryBreakdown where
  category : String
  total : ℚ
  percentage : JsNum
  transactionCount : ℕ
deriving DecidableEq, Repr

/-- FinancialMetrics mirrors the `FinancialMetrics` record. -/
structure FinancialMetrics where
  totalSpending : ℚ
  totalIncome : ℚ
  netCashFlow : ℚ
  averageDaily : ℚ
  averageMonthly : ℚ
  categoryBreakdown : List CategoryBreakdown
deriving DecidableEq, Repr

/-- FinError is the error vocabulary of the Metrics Aggregator's contract
in the specification (`EmptyDatasetError`); the embedding of
`calculateMetrics` returns `Except FinError FinancialMetrics` so that the
claimed error behaviour is statable. -/
inductive FinError where
  | emptyDatasetError
deriving DecidableEq, Repr

/-- upsert models `map.set(k, (map.get(k) ?? []).push(v))` inside a JS
`forEach`: the value is appended to the entry for `k`, which keeps its
original position, or a new entry is appended at the end. -/
def upsert {κ β : Type} [DecidableEq κ] (k : κ) (v : β) :
    List (κ × List β) → List (κ × List β)
  | [] => [(k, [v])]
  | (k', vs) :: rest =>
    if k' = k then (k', vs ++ [v]) :: rest else (k', vs) :: upsert k v rest

/-- groupByKeyList models grouping a list into a JS `Map` from a derived
key to the list of elements with that key, in key-insertion order. -/
def groupByKeyList {α κ : Type} [DecidableEq κ] (key : α → κ)
    (l : List α) : List (κ × List α) :=
  l.foldl (fun m t => upsert (key t) t m) []

/-- addAt models `map.set(k, (map.get(k) ?? 0) + v)` inside a JS `forEach`:
accumulation at a key that keeps its insertion position. -/
def addAt {κ : Type} [DecidableEq κ] (k : κ) (v : ℚ) :
    List (κ × ℚ) → List (κ × ℚ)
  | [] => [(k, v)]
  | (k', x) :: rest =>
    if k' = k then (k', x + v) :: rest else (k', x) :: addAt k v rest

/-- diffs computes the consecutive differences of a list, mirroring the
`for (let i = 1; ...) intervals.push(dates[i] - dates[i-1])` loop. -/
def diffs : List ℤ → List ℤ
  | a :: b :: rest => (b - a) :: diffs (b :: rest)
  | _ => []

/-- maxOfList embeds `Math.max(...totals)` for the non-empty lists it is
applied to (the `0` branch for `[]` is never reached: every use is guarded
by a length check in the source). -/
def maxOfList : List ℚ → ℚ
  | [] => 0
  | x :: xs => xs.foldl max x

/-- orderedInsertBy inserts `a` into `l` directly before the first element
`b` with `le a b`; on an `le`-sorted list this is the stable insertion
position (ties in `l` come from later input elements, and `a` is placed
before all of them). -/
def orderedInsertBy {α : Type} (le : α → α → Bool) (a : α) : List α → List α
  | [] => [a]
  | b :: l => if le a b then a :: b :: l else b :: orderedInsertBy le a l

/-- jsSort models the stable JS `Array.prototype.sort` with a consistent
comparator, where `le a b` means the comparator returns ≤ 0 on `(a, b)`:
for a transitive total `le` the sorted stable permutation is unique, so
stable insertion sort is extensionally the sort the engine performs. -/
def jsSort {α : Type} (le : α → α → Bool) : List α → List α
  | [] => []
  | a :: l => orderedInsertBy le a (jsSort le l)

/-- isJsSpace recognizes the whitespace characters relevant to the regex
class `\s` for the ordinary ASCII text in scope. -/
def isJsSpace (c : Char) : Bool :=
  c == ' ' || c == '\t' || c == '\n' || c == '\r'

/-- splitWordsAux splits a character list into maximal whitespace-free
words, accumulating the current word in reverse. -/
def splitWordsAux : List Char → List Char → List (List Char)
  | [], [] => []
  | [], acc => [acc.reverse]
  | c :: rest, acc =>
    if isJsSpace c then
      if acc = [] then splitWordsAux rest []
      else acc.reverse :: splitWordsAux rest []
    else splitWordsAux rest (c :: acc)

/-- splitWords models `s.trim().split(/\s+/)` on the level of words: it
yields the maximal whitespace-free words of `s` in order (and `[]` for
whitespace-only input, whose rejoining yields `""` exactly as in JS). -/
def splitWords (cs : List Char) : List (List Char) :=
  splitWordsAux cs []

/-- singleSpace is the join separator `" "`. -/
def singleSpace : String := " "

/-- normalizeDescription embeds `PatternDetector.normalizeDescription`:
lower-case, strip digits, strip everything but letters and whitespace,
trim, split on whitespace, keep the first three words, and rejoin with
single spaces. -/
def normalizeDescription (desc : String) : String :=
  let lowered := desc.data.map Char.toLower
  let noDigits := lowered.filter (fun c => !c.isDigit)
  let letters := noDigits.filter (fun c => c.isLower || isJsSpace c)
  String.intercalate singleSpace
    (((splitWords letters).take 3).map (fun w => String.mk w))

/-- calculateCategoryBreakdownEntries embeds the pre-sort body of
`FinancialCalculator.calculateCategoryBreakdown`: the source fills two
parallel insertion-ordered maps (`categoryTotals`, `categoryCounts`) in one
pass and then walks `categoryTotals`; grouping once and taking the sum and
length of each group is the same computation.  `percentage` is
`(total / totalSpending) * 100` with no guard on the denominator. -/
def calculateCategoryBreakdownEntries
    (expenses : List CategorizedTransaction) : List CategoryBreakdown :=
  let groups := groupByKeyList (fun t => t.category) expenses
  let totalSpending := (expenses.map (fun t => t.amount)).sum
  groups.map (fun kg =>
    { category := kg.1,
      total := (kg.2.map (fun t => t.amount)).sum,
      percentage := jsDivMul100 ((kg.2.map (fun t => t.amount)).sum) totalSpending,
      transactionCount := kg.2.length })

/-- calculateCategoryBreakdown embeds
`FinancialCalculator.calculateCategoryBreakdown`: the entries sorted by
`(a, b) => b.total - a.total` (stable, descending by total). -/
def calculateCategoryBreakdown
    (expenses : List CategorizedTransaction) : List CategoryBreakdown :=
  jsSort (fun a b => decide (b.total ≤ a.total))
    (calculateCategoryBreakdownEntries expenses)

/-- calculateMetrics embeds `FinancialCalculator.calculateMetrics`.  The
source never throws, so the `Except` result (typed against the
specification's `EmptyDatasetError` vocabulary) is always `ok`.  On empty
input `Math.min()`/`Math.max()` give `±Infinity`, the dates become invalid
and `daysDiff` is `NaN`; both `NaN` and `0` are falsy, so `daysDiff || 1`
and `monthsDiff || 1` yield `1` — modelled by `none ↦ 1` and `0 ↦ 1`. -/
def calculateMetrics
    (transactions : List CategorizedTransaction) :
    Except FinError FinancialMetrics :=
  let income := transactions.filter (fun t => t.isIncome)
  let expenses := transactions.filter (fun t => !t.isIncome)
  let totalIncome := (income.map (fun t => t.amount)).sum
  let totalSpending := (expenses.map (fun t => t.amount)).sum
  let netCashFlow := totalIncome - totalSpending
  let daysDiffOpt : Option ℚ :=
    match transactions.map (fun t => t.date.time) with
    | [] => none
    | d :: ds => some ((((ds.foldl max d) - (ds.foldl min d) : ℤ) : ℚ) / 86400000)
  let dailyDenom : ℚ :=
    match daysDiffOpt with
    | none => 1
    | some q => if q = 0 then 1 else q
  let monthlyDenom : ℚ :=
    match daysDiffOpt.map (fun q => q / 30) with
    | none => 1
    | some q => if q = 0 then 1 else q
  Except.ok
    { totalSpending := totalSpending,
      totalIncome := totalIncome,
      netCashFlow := netCashFlow,
      averageDaily := totalSpending / dailyDenom,
      averageMonthly := totalSpending / monthlyDenom,
      categoryBreakdown := calculateCategoryBreakdown expenses }

/-- recurringDescriptions embeds the `Set<string>` of normalized
descriptions of the transactions attached to the recurring patterns
(membership in the concatenated list models membership in the set). -/
def recurringDescriptions
    (recurringPatterns : List DetectedPattern) : List String :=
  recurringPatterns.flatMap
    (fun p => p.transactions.map (fun t => normalizeDescription t.description))

/-- exceedsThreeSigma embeds `t.amount > avg + 3 * stdDev` where
`stdDev = Math.sqrt(variance)`: since `stdDev = √variance ≥ 0`, the JS
condition is equivalent to the rational condition
`amt - avg > 0 ∧ (amt - avg)² > 9·variance`. -/
def exceedsThreeSigma (amt avg variance : ℚ) : Bool :=
  decide (0 < amt - avg) && decide (9 * variance < (amt - avg) ^ 2)

/-- recurEmit embeds the body of the `descriptionGroups.forEach` loop of
`PatternDetector.findRecurringCharges` for one group `(desc, txns)`: for a
group of ≥ 2 members whose amounts all deviate from the group mean by
strictly less than a tenth of the mean and whose ascending-sorted dates
have an average consecutive gap of 25–35 days, emit a `recurring_charge`
pattern, else nothing. -/
def recurEmit (desc : String)
    (txns : List CategorizedTransaction) : Option DetectedPattern :=
  if 2 ≤ txns.length then
    let amounts := txns.map (fun t => t.amount)
    let avgAmount := amounts.sum / (amounts.length : ℚ)
    if amounts.all (fun amt => decide (|amt - avgAmount| < avgAmount * (1 / 10))) then
      let dates := jsSort (fun a b => decide (a ≤ b))
        (txns.map (fun t => t.date.time))
      let intervals := diffs dates
      let avgInterval := ((intervals.sum : ℤ) : ℚ) / (intervals.length : ℚ)
      let daysInterval := avgInterval / 86400000
      if 25 ≤ daysInterval ∧ daysInterval ≤ 35 then
        some { type := PatternType.recurring_charge,
               descr := PatternDescr.recurring desc avgAmount,
               transactions := txns,
               severity := if 50 < avgAmount then Severity.medium else Severity.low,
               impact := avgAmount * 12 }
      else none
    else none
  else none

/-- findRecurringCharges embeds `PatternDetector.findRecurringCharges`:
group all transactions by normalized description and run `recurEmit` over
the groups in insertion order. -/
def findRecurringCharges
    (transactions : List CategorizedTransaction) : List DetectedPattern :=
  (groupByKeyList (fun t => normalizeDescription t.description)
      transactions).filterMap (fun kg => recurEmit kg.1 kg.2)

/-- findAnomalies embeds `PatternDetector.findAnomalies`: over the expense
amounts compute the mean and population variance, then emit an `anomaly`
pattern for every expense transaction that is not a known recurring charge
and exceeds mean + 3 standard deviations (`exceedsThreeSigma`). -/
def findAnomalies (transactions : List CategorizedTransaction)
    (recurringPatterns : List DetectedPattern) : List DetectedPattern :=
  let recurringDescs := recurringDescriptions recurringPatterns
  let amounts := (transactions.filter (fun t => !t.isIncome)).map (fun t => t.amount)
  if amounts.length = 0 then []
  else
    let avg := amounts.sum / (amounts.length : ℚ)
    let variance := (amounts.map (fun amt => (amt - avg) ^ 2)).sum / (amounts.length : ℚ)
    transactions.filterMap (fun t =>
      if t.isIncome then none
      else if recurringDescs.contains (normalizeDescription t.description) then none
      else if exceedsThreeSigma t.amount avg variance then
        some { type := PatternType.anomaly,
               descr := PatternDescr.anomalyAt t.description t.amount,
               transactions := [t],
               severity := if 1000 < t.amount then Severity.high else Severity.medium,
               impact := t.amount }
      else none)

/-- categoryMonthlyTotals embeds the grouping phase of
`PatternDetector.findSpendingSpikes`: expenses are grouped into the nested
map month ↦ category ↦ transactions (month keys in first-appearance order,
category keys in first-appearance order within each month), which is then
walked outer-month, inner-category, pushing each month's category total
onto `categoryMonthlyTotals`. -/
def categoryMonthlyTotals
    (transactions : List CategorizedTransaction) : List (String × List ℚ) :=
  let expenses := transactions.filter (fun t => !t.isIncome)
  let monthlyByCategory :=
    (groupByKeyList (fun t => (t.date.year, t.date.month)) expenses).map
      (fun mg => (mg.1, groupByKeyList (fun t => t.category) mg.2))
  monthlyByCategory.foldl
    (fun acc mg =>
      mg.2.foldl
        (fun acc cg => upsert cg.1 ((cg.2.map (fun t => t.amount)).sum) acc)
        acc)
    []

/-- spikeEmit embeds the body of the `categoryMonthlyTotals.forEach` loop
of `PatternDetector.findSpendingSpikes` for one category and its monthly
totals: with ≥ 2 observed months, emit a `spending_spike` pattern when the
maximum monthly total exceeds 1.5 times their mean, else nothing. -/
def spikeEmit (category : String) (totals : List ℚ) : Option DetectedPattern :=
  if totals.length < 2 then none
  else
    let avg := totals.sum / (totals.length : ℚ)
    let mx := maxOfList totals
    if avg * (3 / 2) < mx then
      some { type := PatternType.spending_spike,
             descr := PatternDescr.spike category mx avg,
             transactions := [],
             severity := if 500 < mx - avg then Severity.high else Severity.medium,
             impact := mx - avg }
    else none

/-- findSpendingSpikes embeds `PatternDetector.findSpendingSpikes`: run
`spikeEmit` over the per-category monthly totals in insertion order. -/
def findSpendingSpikes
    (transactions : List CategorizedTransaction) : List DetectedPattern :=
  (categoryMonthlyTotals transactions).filterMap (fun ct => spikeEmit ct.1 ct.2)

/-- lexLe is lexicographic order on `(year, month)` pairs, which is what
`localeCompare` on the zero-padded `"YYYY-MM"` month keys computes for
real dates. -/
def lexLe (a b : ℤ × ℤ) : Bool :=
  decide (a.1 < b.1) || (decide (a.1 = b.1) && decide (a.2 ≤ b.2))

/-- trendMonthlyTotals embeds the per-month expense totals map of
`PatternDetector.findTrends` (insertion-ordered, accumulating). -/
def trendMonthlyTotals
    (transactions : List CategorizedTransaction) : List ((ℤ × ℤ) × ℚ) :=
  transactions.foldl
    (fun m t =>
      if t.isIncome then m else addAt (t.date.year, t.date.month) t.amount m)
    []

/-- sortedTrendMonths embeds
`Array.from(monthlyTotals.entries()).sort((a, b) => a[0].localeCompare(b[0]))`. -/
def sortedTrendMonths
    (transactions : List CategorizedTransaction) : List ((ℤ × ℤ) × ℚ) :=
  jsSort (fun a b => lexLe a.1 b.1) (trendMonthlyTotals transactions)

/-- dirIncreasing is the direction word for a positive change. -/
def dirIncreasing : String := "increasing"

/-- dirDecreasing is the direction word for a non-positive change. -/
def dirDecreasing : String := "decreasing"

/-- findTrends embeds `PatternDetector.findTrends`.  The JS value
`percentChange = (change / firstMonth) * 100` is `NaN` when
`firstMonth = 0 ∧ change = 0` (every comparison false, nothing emitted)
and `±Infinity` when `firstMonth = 0 ∧ change ≠ 0` (`Math.abs` of it
exceeds both thresholds); both cases are written out explicitly. -/
def findTrends
    (transactions : List CategorizedTransaction) : List DetectedPattern :=
  let monthlyTotals := trendMonthlyTotals transactions
  if monthlyTotals.length < 2 then []
  else
    match sortedTrendMonths transactions with
    | [] => []
    | f :: rest =>
      let firstMonth := f.2
      let lastMonth := (rest.getLastD f).2
      let change := lastMonth - firstMonth
      if firstMonth = 0 then
        if change = 0 then []
        else
          [{ type := PatternType.trend,
             descr := PatternDescr.trendDir
               (if 0 < change then dirIncreasing else dirDecreasing)
               JsNum.posInf,
             transactions := [],
             severity := Severity.high,
             impact := |change| }]
      else
        let percentChange := change / firstMonth * 100
        if 15 < |percentChange| then
          [{ type := PatternType.trend,
             descr := PatternDescr.trendDir
               (if 0 < change then dirIncreasing else dirDecreasing)
               (JsNum.fin |percentChange|),
             transactions := [],
             severity := if 30 < |percentChange| then Severity.high else Severity.medium,
             impact := |change| }]
        else []

/-- detectPatterns embeds `PatternDetector.detectPatterns`: run the
detectors strictly in order recurring → anomaly (fed the recurring
output) → spike → trend, concatenate, and stable-sort descending by
impact (`(a, b) => b.impact - a.impact`). -/
def detectPatterns
    (transactions : List CategorizedTransaction) : List DetectedPattern :=
  let recurringPatterns := findRecurringCharges transactions
  let patterns :=
    recurringPatterns ++
      findAnomalies transactions recurringPatterns ++
        findSpendingSpikes transactions ++ findTrends transactions
  jsSort (fun a b => decide (b.impact ≤ a.impact)) patterns

/-- recurTag recognizes the recurring pattern emitted for a given
normalized-description key. -/
def recurTag (p : DetectedPattern) (k : String) : Bool :=
  match p.descr with
  | PatternDescr.recurring d _ => d == k
  | _ => false

/-- spikeTag recognizes the spike pattern emitted for a given category. -/
def spikeTag (p : DetectedPattern) (k : String) : Bool :=
  match p.descr with
  | PatternDescr.spike c _ _ => c == k
  | _ => false

/-- specTieBreakNameAsc formalizes the ordering asserted by the
specification for the category breakdown: descending by total, with ties
ordered by category name ascending. -/
def specTieBreakNameAsc (l : List CategoryBreakdown) : Prop :=
  List.Pairwise
    (fun a b => b.total < a.total ∨ (b.total = a.total ∧ a.category < b.category)) l

/-- dayMs converts whole days to the millisecond timestamps of `getTime`. -/
def dayMs (n : ℤ) : ℤ := n * 86400000

/-! Concrete inputs used by witnesses and counterexamples. -/

/-- descSalary is a sample income description. -/
def descSalary : String := "Salary Deposit"

/-- keySalary is the normalized form of `descSalary`. -/
def keySalary : String := "salary deposit"

/-- descNetflix is a sample subscription description (already in
normalized form). -/
def descNetflix : String := "netflix"

/-- descCoffee is a sample small-expense description (already normalized). -/
def descCoffee : String := "coffee"

/-- descYacht is a sample outlier description (already normalized). -/
def descYacht : String := "yacht club fee"

/-- descRent is a sample recurring housing description (already
normalized). -/
def descRent : String := "monthly rent"

/-- descFurniture is a sample one-off housing description (already
normalized). -/
def descFurniture : String := "new furniture"

/-- descGroceries is a sample expense description (already normalized). -/
def descGroceries : String := "groceries"

/-- descMarket is a sample expense description (already normalized). -/
def descMarket : String := "market run"

/-- descStuff is a sample expense description (already normalized). -/
def descStuff : String := "stuff"

/-- descTaxi is a sample transport description (already normalized). -/
def descTaxi : String := "taxi ride"

/-- descBurger is a sample food description (already normalized). -/
def descBurger : String := "burger deluxe"

/-- catIncome is the `"Income"` category. -/
def catIncome : String := "Income"

/-- catOther is the `"Other"` category. -/
def catOther : String := "Other"

/-- catEnt is the `"Entertainment"` category. -/
def catEnt : String := "Entertainment"

/-- catFood is the `"Food & Dining"` category. -/
def catFood : String := "Food & Dining"

/-- catTransport is the `"Transportation"` category. -/
def catTransport : String := "Transportation"

/-- catHousing is the `"Housing"` category. -/
def catHousing : String := "Housing"

/-- salaryTx1 is a salary deposit on day 0. -/
def salaryTx1 : CategorizedTransaction :=
  ⟨⟨dayMs 0, 2024, 0⟩, descSalary, 5000, true, catIncome, 1⟩

/-- salaryTx2 is a salary deposit on day 30. -/
def salaryTx2 : CategorizedTransaction :=
  ⟨⟨dayMs 30, 2024, 1⟩, descSalary, 5000, true, catIncome, 1⟩

/-- salaryTx3 is a salary deposit on day 60. -/
def salaryTx3 : CategorizedTransaction :=
  ⟨⟨dayMs 60, 2024, 2⟩, descSalary, 5000, true, catIncome, 1⟩

/-- salaryTxs is an income-only dataset with a monthly salary cadence. -/
def salaryTxs : List CategorizedTransaction := [salaryTx1, salaryTx2, salaryTx3]

/-- salaryPattern is the recurring-charge pattern the detector emits for
`salaryTxs`. -/
def salaryPattern : DetectedPattern :=
  ⟨PatternType.recurring_charge, PatternDescr.recurring keySalary 5000,
    salaryTxs, Severity.medium, 60000⟩

/-- netflixTx1 is a subscription charge on day 0. -/
def netflixTx1 : CategorizedTransaction :=
  ⟨⟨dayMs 0, 2024, 0⟩, descNetflix, 10, false, catEnt, 1⟩

/-- netflixTx2 is a subscription charge on day 30. -/
def netflixTx2 : CategorizedTransaction :=
  ⟨⟨dayMs 30, 2024, 1⟩, descNetflix, 10, false, catEnt, 1⟩

/-- coffeeTx is a small identical expense, repeated to tighten the expense
standard deviation. -/
def coffeeTx : CategorizedTransaction :=
  ⟨⟨dayMs 0, 2024, 0⟩, descCoffee, 10, false, catFood, 1⟩

/-- yachtTx is a large outlier expense. -/
def yachtTx : CategorizedTransaction :=
  ⟨⟨dayMs 0, 2024, 0⟩, descYacht, 1000, false, catEnt, 1⟩

/-- exC3 mixes a recurring subscription, many identical small expenses and
one statistical outlier. -/
def exC3 : List CategorizedTransaction :=
  [netflixTx1, netflixTx2] ++ List.replicate 10 coffeeTx ++ [yachtTx]

/-- exC7 is the two-charge subscription dataset alone. -/
def exC7 : List CategorizedTransaction := [netflixTx1, netflixTx2]

/-- netflixPattern is the recurring-charge pattern for the subscription
pair. -/
def netflixPattern : DetectedPattern :=
  ⟨PatternType.recurring_charge, PatternDescr.recurring descNetflix 10,
    exC7, Severity.low, 120⟩

/-- yachtPattern is the anomaly pattern emitted for `exC3`. -/
def yachtPattern : DetectedPattern :=
  ⟨PatternType.anomaly, PatternDescr.anomalyAt descYacht 1000, [yachtTx],
    Severity.medium, 1000⟩

/-- groceriesTx is an expense of 60 on day 0. -/
def groceriesTx : CategorizedTransaction :=
  ⟨⟨dayMs 0, 2024, 0⟩, descGroceries, 60, false, catOther, 1⟩

/-- marketTx is an expense of 40 on day 15. -/
def marketTx : CategorizedTransaction :=
  ⟨⟨dayMs 15, 2024, 0⟩, descMarket, 40, false, catOther, 1⟩

/-- exC4 spans exactly 15 days (half of the 30-day month divisor). -/
def exC4 : List CategorizedTransaction := [groceriesTx, marketTx]

/-- mC4 is the metrics value the calculator returns on `exC4`. -/
def mC4 : FinancialMetrics :=
  ⟨100, 0, -100, 20 / 3, 200, [⟨catOther, 100, JsNum.fin 100, 2⟩]⟩

/-- zeroTx is a single expense of amount 0. -/
def zeroTx : CategorizedTransaction :=
  ⟨⟨dayMs 0, 2024, 0⟩, descStuff, 0, false, catOther, 1⟩

/-- exC5 is a dataset whose total spending is 0 but whose breakdown is
non-empty. -/
def exC5 : List CategorizedTransaction := [zeroTx]

/-- mC5 is the metrics value the calculator returns on `exC5`; its only
percentage is `NaN`. -/
def mC5 : FinancialMetrics :=
  ⟨0, 0, 0, 0, 0, [⟨catOther, 0, JsNum.nan, 1⟩]⟩

/-- taxiTx is an expense of 10 in Transportation. -/
def taxiTx : CategorizedTransaction :=
  ⟨⟨dayMs 0, 2024, 0⟩, descTaxi, 10, false, catTransport, 1⟩

/-- burgerTx is an expense of 10 in Food & Dining. -/
def burgerTx : CategorizedTransaction :=
  ⟨⟨dayMs 0, 2024, 0⟩, descBurger, 10, false, catFood, 1⟩

/-- exC6 has two categories with equal totals, first-appearance order
descending by name. -/
def exC6 : List CategorizedTransaction := [taxiTx, burgerTx]

/-- mC6 is the metrics value the calculator returns on `exC6`: the tied
categories stay in first-appearance order, not name-ascending order. -/
def mC6 : FinancialMetrics :=
  ⟨20, 0, -20, 20, 20,
    [⟨catTransport, 10, JsNum.fin 50, 1⟩, ⟨catFood, 10, JsNum.fin 50, 1⟩]⟩

/-- rentTx1 is a rent charge of 100 in month 0. -/
def rentTx1 : CategorizedTransaction :=
  ⟨⟨dayMs 0, 2024, 0⟩, descRent, 100, false, catHousing, 1⟩

/-- rentTx2 is a rent charge of 100 in month 1. -/
def rentTx2 : CategorizedTransaction :=
  ⟨⟨dayMs 30, 2024, 1⟩, descRent, 100, false, catHousing, 1⟩

/-- rentTx3 is a rent charge of 100 in month 2. -/
def rentTx3 : CategorizedTransaction :=
  ⟨⟨dayMs 60, 2024, 2⟩, descRent, 100, false, catHousing, 1⟩

/-- rentTx4 is a rent charge of 100 in month 3. -/
def rentTx4 : CategorizedTransaction :=
  ⟨⟨dayMs 90, 2024, 3⟩, descRent, 100, false, catHousing, 1⟩

/-- furnitureTx is a one-off expense of 300 in month 3. -/
def furnitureTx : CategorizedTransaction :=
  ⟨⟨dayMs 95, 2024, 3⟩, descFurniture, 300, false, catHousing, 1⟩

/-- exC8 yields Housing monthly totals [100, 100, 100, 400]; the rent is
simultaneously a recurring charge. -/
def exC8 : List CategorizedTransaction :=
  [rentTx1, rentTx2, rentTx3, rentTx4, furnitureTx]

/-- rentPattern is the recurring-charge pattern the detector emits for the
rent series of `exC8`. -/
def rentPattern : DetectedPattern :=
  ⟨PatternType.recurring_charge, PatternDescr.recurring descRent 100,
    [rentTx1, rentTx2, rentTx3, rentTx4], Severity.medium, 1200⟩

/-- totalsC8 is the Housing monthly-totals sequence of `exC8`. -/
def totalsC8 : List ℚ := [100, 100, 100, 400]

/-- spikeC8 is the spike pattern emitted for `exC8`. -/
def spikeC8 : DetectedPattern :=
  ⟨PatternType.spending_spike, PatternDescr.spike catHousing 400 175, [],
    Severity.medium, 225⟩

/-- trendTx1 is an expense of 1000 in month 0. -/
def trendTx1 : CategorizedTransaction :=
  ⟨⟨dayMs 0, 2024, 0⟩, descGroceries, 1000, false, catOther, 1⟩

/-- trendTx2 is an expense of 1300 in month 1. -/
def trendTx2 : CategorizedTransaction :=
  ⟨⟨dayMs 30, 2024, 1⟩, descGroceries, 1300, false, catOther, 1⟩

/-- exC9 has month totals 1000 then 1300 (a 30% increase). -/
def exC9 : List CategorizedTransaction := [trendTx1, trendTx2]

/-- trendC9 is the trend pattern emitted for `exC9`. -/
def trendC9 : DetectedPattern :=
  ⟨PatternType.trend, PatternDescr.trendDir dirIncreasing (JsNum.fin 30), [],
    Severity.medium, 300⟩

/-! Generic lemmas about the embedding's building blocks. -/

/-- orderedInsertBy agrees with Mathlib's `List.orderedInsert` for the
relation induced by the Boolean comparator. -/
theorem orderedInsertBy_eq {α : Type} (le : α → α → Bool) (a : α) :
    ∀ l : List α, orderedInsertBy le a l = List.orderedInsert (le · ·) a l
  | [] => rfl
  | b :: l => by
    by_cases h : le a b
    · simp [orderedInsertBy, List.orderedInsert, h]
    · simp [orderedInsertBy, List.orderedInsert, h, orderedInsertBy_eq le a l]

/-- jsSort agrees with Mathlib's `List.insertionSort` for the relation
induced by the Boolean comparator. -/
theorem jsSort_eq {α : Type} (le : α → α → Bool) :
    ∀ l : List α, jsSort le l = List.insertionSort (le · ·) l
  | [] => rfl
  | a :: l => by
    simp [jsSort, List.insertionSort, jsSort_eq le l, orderedInsertBy_eq]

/-- jsSort permutes its input. -/
theorem jsSort_perm {α : Type} (le : α → α → Bool) (l : List α) :
    List.Perm (jsSort le l) l := by
  rw [jsSort_eq]
  exact List.perm_insertionSort _ l

/-- Membership is invariant under jsSort. -/
theorem mem_jsSort {α : Type} {le : α → α → Bool} {l : List α} {x : α} :
    x ∈ jsSort le l ↔ x ∈ l :=
  (jsSort_perm le l).mem_iff

/-- jsSort sorts with respect to a transitive total comparator. -/
theorem jsSort_pairwise {α : Type} (le : α → α → Bool)
    (htrans : ∀ a b c, le a b = true → le b c = true → le a c = true)
    (htotal : ∀ a b, le a b = true ∨ le b a = true) (l : List α) :
    (jsSort le l).Pairwise (le · ·) := by
  rw [jsSort_eq]
  letI : IsTotal α (le · ·) := ⟨htotal⟩
  letI : IsTrans α (le · ·) := ⟨htrans⟩
  exact List.sorted_insertionSort (le · ·) l

/-- Stability of jsSort, in filter form: the elements satisfying a
predicate on which the comparator is constantly true keep their relative
order, i.e. filtering commutes with the sort. -/
theorem jsSort_filter_eq {α : Type} (le : α → α → Bool) (p : α → Bool)
    (hp : ∀ a b, p a = true → p b = true → le a b = true) (l : List α) :
    (jsSort le l).filter p = l.filter p := by
  rw [jsSort_eq]
  have h1 : (l.filter p).Pairwise (le · ·) := by
    refine List.pairwise_of_forall_mem_list ?_
    intro a ha b hb
    exact hp a b (List.of_mem_filter ha) (List.of_mem_filter hb)
  have h3 : List.Sublist (l.filter p) (List.insertionSort (le · ·) l) :=
    List.sublist_insertionSort h1 (List.filter_sublist l)
  have h4 : List.Sublist (l.filter p) ((List.insertionSort (le · ·) l).filter p) := by
    have h5 := h3.filter p
    have h6 : (l.filter p).filter p = l.filter p := by
      simp [List.filter_filter]
    rwa [h6] at h5
  have h7 : ((List.insertionSort (le · ·) l).filter p).length = (l.filter p).length :=
    ((List.perm_insertionSort (le · ·) l).filter p).length_eq
  exact (h4.eq_of_length h7.symm).symm

/-- The fold embedding `Math.min(...)` produces an element of the list. -/
theorem foldl_min_mem {α : Type} [LinearOrder α] :
    ∀ (l : List α) (a : α), l.foldl min a ∈ a :: l
  | [], a => by simp
  | b :: t, a => by
    rcases List.mem_cons.mp (foldl_min_mem t (min a b)) with h | h
    · rcases min_choice a b with hm | hm
      · rw [List.foldl_cons, h, hm]; exact List.mem_cons_self a (b :: t)
      · rw [List.foldl_cons, h, hm]
        exact List.mem_cons_of_mem a (List.mem_cons_self b t)
    · exact List.mem_cons_of_mem a (List.mem_cons_of_mem b (by rwa [List.foldl_cons]))

/-- The fold embedding `Math.min(...)` is at most its initial value. -/
theorem foldl_min_le_init {α : Type} [LinearOrder α] :
    ∀ (l : List α) (a : α), l.foldl min a ≤ a
  | [], _ => le_refl _
  | b :: t, a =>
    le_trans (by rw [List.foldl_cons]; exact foldl_min_le_init t (min a b))
      (min_le_left a b)

/-- The fold embedding `Math.min(...)` is a lower bound of the members. -/
theorem foldl_min_le_mem {α : Type} [LinearOrder α] :
    ∀ (l : List α) (a x : α), x ∈ l → l.foldl min a ≤ x
  | b :: t, a, x, hx => by
    rw [List.foldl_cons]
    rcases List.mem_cons.mp hx with h' | h'
    · subst h'
      exact le_trans (foldl_min_le_init t (min a x)) (min_le_right a x)
    · exact foldl_min_le_mem t (min a b) x h'

/-- The fold embedding `Math.min(...)` is a lower bound of the list. -/
theorem foldl_min_le {α : Type} [LinearOrder α]
    (l : List α) (a : α) : ∀ x ∈ a :: l, l.foldl min a ≤ x := by
  intro x hx
  rcases List.mem_cons.mp hx with h | h
  · subst h; exact foldl_min_le_init l x
  · exact foldl_min_le_mem l a x h

/-- The fold embedding `Math.max(...)` produces an element of the list. -/
theorem foldl_max_mem {α : Type} [LinearOrder α] :
    ∀ (l : List α) (a : α), l.foldl max a ∈ a :: l
  | [], a => by simp
  | b :: t, a => by
    rcases List.mem_cons.mp (foldl_max_mem t (max a b)) with h | h
    · rcases max_choice a b with hm | hm
      · rw [List.foldl_cons, h, hm]; exact List.mem_cons_self a (b :: t)
      · rw [List.foldl_cons, h, hm]
        exact List.mem_cons_of_mem a (List.mem_cons_self b t)
    · exact List.mem_cons_of_mem a (List.mem_cons_of_mem b (by rwa [List.foldl_cons]))

/-- The fold embedding `Math.max(...)` is at least its initial value. -/
theorem le_foldl_max_init {α : Type} [LinearOrder α] :
    ∀ (l : List α) (a : α), a ≤ l.foldl max a
  | [], _ => le_refl _
  | b :: t, a =>
    le_trans (le_max_left a b)
      (by rw [List.foldl_cons]; exact le_foldl_max_init t (max a b))

/-- The fold embedding `Math.max(...)` is an upper bound of the members. -/
theorem le_foldl_max_mem {α : Type} [LinearOrder α] :
    ∀ (l : List α) (a x : α), x ∈ l → x ≤ l.foldl max a
  | b :: t, a, x, hx => by
    rw [List.foldl_cons]
    rcases List.mem_cons.mp hx with h' | h'
    · subst h'
      exact le_trans (le_max_right a x) (le_foldl_max_init t (max a x))
    · exact le_foldl_max_mem t (max a b) x h'

/-- The fold embedding `Math.max(...)` is an upper bound of the list. -/
theorem le_foldl_max {α : Type} [LinearOrder α]
    (l : List α) (a : α) : ∀ x ∈ a :: l, x ≤ l.foldl max a := by
  intro x hx
  rcases List.mem_cons.mp hx with h | h
  · subst h; exact le_foldl_max_init l x
  · exact le_foldl_max_mem l a x h

/-- getLastD of a list is the list's last element or the default. -/
theorem getLastD_mem {α : Type} :
    ∀ (l : List α) (d : α), l.getLastD d ∈ d :: l
  | [], d => by simp
  | b :: t, d => by
    rw [List.getLastD_cons]
    exact List.mem_cons_of_mem d (getLastD_mem t b)

/-- In a Pairwise-sorted list every element is related to the last one
(for a reflexive transitive relation). -/
theorem pairwise_rel_getLastD {α : Type} (R : α → α → Prop)
    (htrans : ∀ a b c, R a b → R b c → R a c) (hrefl : ∀ a, R a a) :
    ∀ (x : α) (xs : List α), (x :: xs).Pairwise R →
      ∀ y ∈ x :: xs, R y (xs.getLastD x)
  | x, [], _ => by simpa using hrefl x
  | x, b :: t, hp => by
    intro y hy
    have hp' : (b :: t).Pairwise R := hp.of_cons
    have hlast := pairwise_rel_getLastD R htrans hrefl b t hp'
    rw [List.getLastD_cons]
    rcases List.mem_cons.mp hy with h | h
    · subst h
      exact htrans y b _ (List.rel_of_pairwise_cons hp (List.mem_cons_self b t))
        (hlast b (List.mem_cons_self b t))
    · exact hlast y h

/-- The head of a ≤-sorted permutation of `a :: l` is `Math.min` of
`a :: l`. -/
theorem sorted_head_min {α : Type} [LinearOrder α] {x a : α} {xs l : List α}
    (hs : (x :: xs).Pairwise (fun p q => p ≤ q))
    (hperm : List.Perm (x :: xs) (a :: l)) : x = l.foldl min a := by
  have h1 : l.foldl min a ∈ x :: xs := hperm.mem_iff.mpr (foldl_min_mem l a)
  have h2 : x ∈ a :: l := hperm.mem_iff.mp (List.mem_cons_self x xs)
  have h3 : l.foldl min a ≤ x := foldl_min_le l a x h2
  rcases List.mem_cons.mp h1 with h | h
  · exact h.symm
  · exact le_antisymm (List.rel_of_pairwise_cons hs h) h3

/-- The last element of a ≤-sorted permutation of `a :: l` is `Math.max`
of `a :: l`. -/
theorem sorted_getLastD_max {α : Type} [LinearOrder α] {x a : α} {xs l : List α}
    (hs : (x :: xs).Pairwise (fun p q => p ≤ q))
    (hperm : List.Perm (x :: xs) (a :: l)) : xs.getLastD x = l.foldl max a := by
  have h1 : xs.getLastD x ∈ a :: l := hperm.mem_iff.mp (getLastD_mem xs x)
  have h2 : l.foldl max a ∈ x :: xs := hperm.mem_iff.mpr (foldl_max_mem l a)
  have h3 : xs.getLastD x ≤ l.foldl max a := le_foldl_max l a _ h1
  have h4 := pairwise_rel_getLastD (fun p q => p ≤ q)
    (fun _ _ _ hab hbc => le_trans hab hbc) (fun _ => le_refl _) x xs hs _ h2
  exact le_antisymm h3 h4

/-- Telescoping: the consecutive differences of `a :: l` sum to the last
element minus the first. -/
theorem diffs_sum : ∀ (a : ℤ) (l : List ℤ), (diffs (a :: l)).sum = l.getLastD a - a
  | _, [] => by simp [diffs]
  | a, b :: l => by
    rw [show diffs (a :: b :: l) = (b - a) :: diffs (b :: l) from rfl]
    rw [List.sum_cons, diffs_sum b l, List.getLastD_cons]
    ring

/-- diffs shortens a list by one. -/
theorem diffs_length : ∀ l : List ℤ, (diffs l).length = l.length - 1
  | [] => rfl
  | [_] => rfl
  | a :: b :: l => by
    rw [show diffs (a :: b :: l) = (b - a) :: diffs (b :: l) from rfl]
    rw [List.length_cons, diffs_length (b :: l)]
    simp

/-- A fold preserves any invariant its step preserves. -/
theorem foldl_preserve {β γ : Type} (P : γ → Prop) (f : γ → β → γ)
    (hf : ∀ acc b, P acc → P (f acc b)) :
    ∀ (l : List β) (acc : γ), P acc → P (l.foldl f acc)
  | [], _, h => h
  | b :: t, acc, h => by
    rw [List.foldl_cons]
    exact foldl_preserve P f hf t (f acc b) (hf acc b h)

/-- upsert preserves a per-entry invariant when the inserted value
satisfies it at its key. -/
theorem upsert_forall {κ β : Type} [DecidableEq κ] (P : κ → β → Prop)
    (k : κ) (v : β) :
    ∀ m : List (κ × List β), (∀ kg ∈ m, ∀ x ∈ kg.2, P kg.1 x) → P k v →
      ∀ kg ∈ upsert k v m, ∀ x ∈ kg.2, P kg.1 x
  | [], _, hv => by
    intro kg hkg x hx
    rw [upsert] at hkg
    rcases List.mem_singleton.mp hkg with rfl
    rcases List.mem_singleton.mp hx with rfl
    exact hv
  | (k0, vs0) :: tl, hm, hv => by
    intro kg hkg x hx
    rw [upsert] at hkg
    by_cases h0 : k0 = k
    · rw [if_pos h0] at hkg
      rcases List.mem_cons.mp hkg with h | h
      · subst h
        rcases List.mem_append.mp hx with h' | h'
        · exact hm (k0, vs0) (List.mem_cons_self _ tl) x h'
        · rcases List.mem_singleton.mp h' with rfl
          rw [h0]; exact hv
      · exact hm kg (List.mem_cons_of_mem _ h) x hx
    · rw [if_neg h0] at hkg
      rcases List.mem_cons.mp hkg with h | h
      · subst h
        exact hm (k0, vs0) (List.mem_cons_self _ tl) x hx
      · exact upsert_forall P k v tl
          (fun kg' hkg' => hm kg' (List.mem_cons_of_mem _ hkg')) hv kg h x hx

/-- Every transaction in a group produced by groupByKeyList has the
group's key. -/
theorem groupByKeyList_key_eq {α κ : Type} [DecidableEq κ] (key : α → κ)
    (l : List α) :
    ∀ kg ∈ groupByKeyList key l, ∀ x ∈ kg.2, key x = kg.1 := by
  have h := foldl_preserve
    (fun m : List (κ × List α) => ∀ kg ∈ m, ∀ x ∈ kg.2, key x = kg.1)
    (fun m t => upsert (key t) t m)
    (fun m t hm => upsert_forall (fun k x => key x = k) (key t) t m hm rfl)
    l [] (by intro kg hkg; cases hkg)
  exact h

/-- The key list of an upsert: unchanged if the key is present, else the
key is appended. -/
theorem keys_upsert {κ β : Type} [DecidableEq κ] (k : κ) (v : β) :
    ∀ m : List (κ × List β),
      (upsert k v m).map Prod.fst =
        if k ∈ m.map Prod.fst then m.map Prod.fst else m.map Prod.fst ++ [k]
  | [] => by simp [upsert]
  | (k0, vs0) :: tl => by
    by_cases h0 : k0 = k
    · subst h0
      simp [upsert]
    · rw [upsert, if_neg h0, List.map_cons, List.map_cons, keys_upsert k v tl]
      have hne : ¬ k = k0 := fun h => h0 h.symm
      by_cases hmem : k ∈ tl.map Prod.fst
      · rw [if_pos hmem, if_pos (List.mem_cons_of_mem k0 hmem)]
      · rw [if_neg hmem, if_neg (fun hc => (List.mem_cons.mp hc).elim hne hmem),
          List.cons_append]

/-- upsert preserves distinctness of keys. -/
theorem nodup_keys_upsert {κ β : Type} [DecidableEq κ] (k : κ) (v : β)
    (m : List (κ × List β)) (h : (m.map Prod.fst).Nodup) :
    ((upsert k v m).map Prod.fst).Nodup := by
  rw [keys_upsert]
  by_cases hmem : k ∈ m.map Prod.fst
  · rwa [if_pos hmem]
  · rw [if_neg hmem]
    exact List.Nodup.append h (List.nodup_singleton k)
      (fun a ha hb => absurd (List.mem_singleton.mp hb ▸ ha) hmem)

/-- groupByKeyList produces distinct keys. -/
theorem nodup_keys_groupByKeyList {α κ : Type} [DecidableEq κ]
    (key : α → κ) (l : List α) :
    ((groupByKeyList key l).map Prod.fst).Nodup := by
  exact foldl_preserve
    (fun m : List (κ × List α) => (m.map Prod.fst).Nodup)
    (fun m t => upsert (key t) t m)
    (fun m t hm => nodup_keys_upsert (key t) t m hm)
    l [] List.nodup_nil

/-- categoryMonthlyTotals produces distinct category keys (it is a fold
of upserts starting from the empty map). -/
theorem nodup_keys_categoryMonthlyTotals
    (transactions : List CategorizedTransaction) :
    ((categoryMonthlyTotals transactions).map Prod.fst).Nodup := by
  rw [categoryMonthlyTotals]
  exact foldl_preserve
    (fun m : List (String × List ℚ) => (m.map Prod.fst).Nodup)
    _
    (fun acc mg hacc =>
      foldl_preserve (fun m : List (String × List ℚ) => (m.map Prod.fst).Nodup)
        _
        (fun acc' cg hacc' => nodup_keys_upsert cg.1 _ acc' hacc')
        mg.2 acc hacc)
    _ [] List.nodup_nil

/-- If a key does not occur in an association list, no element emitted
from the list carries that key's tag. -/
theorem filter_tag_eq_nil {κ β γ : Type} [DecidableEq κ]
    (f : κ → β → Option γ) (tag : γ → κ → Bool)
    (htag : ∀ k v g, f k v = some g → ∀ k', tag g k' = true ↔ k' = k)
    (tl : List (κ × β)) (k : κ) (hk : k ∉ tl.map Prod.fst) :
    (tl.filterMap (fun kv => f kv.1 kv.2)).filter (fun g => tag g k) = [] := by
  rw [List.filter_eq_nil_iff]
  intro g hg
  rcases List.mem_filterMap.mp hg with ⟨kv, hkv, hfkv⟩
  intro htg
  have hkk : k = kv.1 := (htag kv.1 kv.2 g hfkv k).mp htg
  exact hk (hkk ▸ List.mem_map.mpr ⟨kv, hkv, rfl⟩)

/-- Filtering the emissions of an association list with distinct keys by
one key's tag yields exactly that key's emission. -/
theorem filterMap_key_filter {κ β γ : Type} [DecidableEq κ]
    (f : κ → β → Option γ) (tag : γ → κ → Bool)
    (htag : ∀ k v g, f k v = some g → ∀ k', tag g k' = true ↔ k' = k) :
    ∀ (m : List (κ × β)), (m.map Prod.fst).Nodup →
      ∀ (k : κ) (b : β), (k, b) ∈ m →
        (m.filterMap (fun kv => f kv.1 kv.2)).filter (fun g => tag g k) =
          (f k b).toList
  | [], _, k, b, hm => absurd hm (List.not_mem_nil _)
  | (k0, b0) :: tl, hnd, k, b, hm => by
    have hnd' : (tl.map Prod.fst).Nodup := by
      rw [List.map_cons] at hnd; exact hnd.of_cons
    have hk0 : k0 ∉ tl.map Prod.fst := by
      rw [List.map_cons] at hnd
      exact (List.nodup_cons.mp hnd).1
    rcases List.mem_cons.mp hm with heq | hmem_tl
    · have hkk0 : k = k0 := congrArg Prod.fst heq
      have hbb0 : b = b0 := congrArg Prod.snd heq
      subst hkk0; subst hbb0
      cases hf : f k b with
      | none =>
        simp only [List.filterMap_cons, hf]
        rw [filter_tag_eq_nil f tag htag tl k hk0]
        rfl
      | some g =>
        simp only [List.filterMap_cons, hf]
        rw [List.filter_cons,
          if_pos (by exact (htag k b g hf k).mpr rfl),
          filter_tag_eq_nil f tag htag tl k hk0]
        rfl
    · have hkmem : k ∈ tl.map Prod.fst :=
        List.mem_map.mpr ⟨(k, b), hmem_tl, rfl⟩
      have hne : ¬ k = k0 := fun h => hk0 (h ▸ hkmem)
      cases hf0 : f k0 b0 with
      | none =>
        simp only [List.filterMap_cons, hf0]
        exact filterMap_key_filter f tag htag tl hnd' k b hmem_tl
      | some g0 =>
        simp only [List.filterMap_cons, hf0]
        rw [List.filter_cons,
          if_neg (by
            intro htg
            exact hne ((htag k0 b0 g0 hf0 k).mp htg))]
        exact filterMap_key_filter f tag htag tl hnd' k b hmem_tl

/-- Normalization of the sample salary description. -/
theorem normSalary : normalizeDescription descSalary = keySalary := by decide

/-- Normalization fixes the already-normal sample descriptions. -/
theorem normNetflix : normalizeDescription descNetflix = descNetflix := by decide

/-- Normalization fixes `descCoffee`. -/
theorem normCoffee : normalizeDescription descCoffee = descCoffee := by decide

/-- Normalization fixes `descYacht`. -/
theorem normYacht : normalizeDescription descYacht = descYacht := by decide

/-- Normalization fixes `descRent`. -/
theorem normRent : normalizeDescription descRent = descRent := by decide

/-- Normalization fixes `descFurniture`. -/
theorem normFurniture : normalizeDescription descFurniture = descFurniture := by decide

/-- Normalization fixes `descGroceries`. -/
theorem normGroceries : normalizeDescription descGroceries = descGroceries := by decide

/-- Normalization fixes `descMarket`. -/
theorem normMarket : normalizeDescription descMarket = descMarket := by decide

/-- Normalization fixes `descStuff`. -/
theorem normStuff : normalizeDescription descStuff = descStuff := by decide

/-- Normalization fixes `descTaxi`. -/
theorem normTaxi : normalizeDescription descTaxi = descTaxi := by decide

/-- Normalization fixes `descBurger`. -/
theorem normBurger : normalizeDescription descBurger = descBurger := by decide

/-- A descending rational-key comparator is transitive. -/
theorem descRatKey_trans {α : Type} (f : α → ℚ) :
    ∀ a b c : α, decide (f b ≤ f a) = true → decide (f c ≤ f b) = true →
      decide (f c ≤ f a) = true := by
  intro a b c hab hbc
  rw [decide_eq_true_eq] at *
  exact le_trans hbc hab

/-- A descending rational-key comparator is total. -/
theorem descRatKey_total {α : Type} (f : α → ℚ) :
    ∀ a b : α, decide (f b ≤ f a) = true ∨ decide (f a ≤ f b) = true := by
  intro a b
  rcases le_total (f b) (f a) with h | h
  · exact Or.inl (decide_eq_true h)
  · exact Or.inr (decide_eq_true h)

/-- The ascending integer comparator is transitive. -/
theorem ascInt_trans : ∀ a b c : ℤ, decide (a ≤ b) = true →
    decide (b ≤ c) = true → decide (a ≤ c) = true := by
  intro a b c hab hbc
  rw [decide_eq_true_eq] at *
  exact le_trans hab hbc

/-- The ascending integer comparator is total. -/
theorem ascInt_total : ∀ a b : ℤ, decide (a ≤ b) = true ∨ decide (b ≤ a) = true := by
  intro a b
  rcases le_total a b with h | h
  · exact Or.inl (decide_eq_true h)
  · exact Or.inr (decide_eq_true h)

/-- lexLe is reflexive. -/
theorem lexLe_refl (a : ℤ × ℤ) : lexLe a a = true := by
  simp [lexLe]

/-- lexLe is transitive. -/
theorem lexLe_trans : ∀ a b c : ℤ × ℤ, lexLe a b = true → lexLe b c = true →
    lexLe a c = true := by
  intro a b c hab hbc
  simp only [lexLe, Bool.or_eq_true, Bool.and_eq_true, decide_eq_true_eq] at *
  rcases hab with h1 | ⟨h1, h2⟩ <;> rcases hbc with h3 | ⟨h3, h4⟩
  · exact Or.inl (lt_trans h1 h3)
  · exact Or.inl (h3 ▸ h1)
  · exact Or.inl (h1 ▸ h3)
  · exact Or.inr ⟨h1.trans h3, le_trans h2 h4⟩

/-- lexLe is total. -/
theorem lexLe_total : ∀ a b : ℤ × ℤ, lexLe a b = true ∨ lexLe b a = true := by
  intro a b
  simp only [lexLe, Bool.or_eq_true, Bool.and_eq_true, decide_eq_true_eq]
  rcases lt_trichotomy a.1 b.1 with h | h | h
  · exact Or.inl (Or.inl h)
  · rcases le_total a.2 b.2 with h2 | h2
    · exact Or.inl (Or.inr ⟨h, h2⟩)
    · exact Or.inr (Or.inr ⟨h.symm, h2⟩)
  · exact Or.inr (Or.inl h)

/-- C1 counterexample: on the empty transaction sequence the Metrics
Aggregator does not raise `EmptyDatasetError`; it returns the all-zero
FinancialMetrics value (the claim asserts it raises rather than
returns). -/
theorem c1_counterexample :
    calculateMetrics [] ≠ Except.error FinError.emptyDatasetError ∧
    calculateMetrics [] = Except.ok ⟨0, 0, 0, 0, 0, []⟩ := by
  have h2 : calculateMetrics [] = Except.ok ⟨0, 0, 0, 0, 0, []⟩ := by
    norm_num [calculateMetrics, calculateCategoryBreakdown,
      calculateCategoryBreakdownEntries, groupByKeyList, jsSort]
  exact ⟨by rw [h2]; exact fun h => Except.noConfusion h, h2⟩

/-- C1 (amended): `calculateMetrics` never fails — it returns one
FinancialMetrics value for every input, the empty sequence included, on
which it returns all-zero totals and averages and an empty breakdown. -/
theorem c1_amended :
    (∀ txs : List CategorizedTransaction, ∃ m, calculateMetrics txs = Except.ok m) ∧
    calculateMetrics [] = Except.ok ⟨0, 0, 0, 0, 0, []⟩ := by
  constructor
  · intro txs; exact ⟨_, rfl⟩
  · norm_num [calculateMetrics, calculateCategoryBreakdown,
      calculateCategoryBreakdownEntries, groupByKeyList, jsSort]

/-- C2: the orchestrator's output is sorted descending by impact, is a
permutation of the concatenation recurring ++ anomaly (fed the recurring
output) ++ spike ++ trend, and is that concatenation's stable sort: for
every impact value the patterns carrying it keep their emission order. -/
theorem c2_detectPatterns_sorted_stable (txs : List CategorizedTransaction) :
    List.Pairwise (fun a b => b.impact ≤ a.impact) (detectPatterns txs) ∧
    List.Perm (detectPatterns txs)
      (findRecurringCharges txs ++
        findAnomalies txs (findRecurringCharges txs) ++
          findSpendingSpikes txs ++ findTrends txs) ∧
    ∀ q : ℚ,
      (detectPatterns txs).filter (fun p => decide (p.impact = q)) =
        (findRecurringCharges txs ++
          findAnomalies txs (findRecurringCharges txs) ++
            findSpendingSpikes txs ++ findTrends txs).filter
          (fun p => decide (p.impact = q)) := by
  refine ⟨?_, ?_, ?_⟩
  · simp only [detectPatterns]
    exact (jsSort_pairwise _ (descRatKey_trans (fun p : DetectedPattern => p.impact))
      (descRatKey_total _) _).imp (fun h => of_decide_eq_true h)
  · simp only [detectPatterns]
    exact jsSort_perm _ _
  · intro q
    simp only [detectPatterns]
    exact jsSort_filter_eq
      (fun a b : DetectedPattern => decide (b.impact ≤ a.impact))
      (fun p : DetectedPattern => decide (p.impact = q))
      (fun a b ha hb => by
        rw [decide_eq_true_eq] at ha hb ⊢
        rw [ha, hb]) _

/-- C5 counterexample: a dataset with one zero-amount expense has
totalSpending 0, and the calculator's percentage for its category is the
JS value `NaN`, not the 0 the claim asserts. -/
theorem c5_counterexample :
    calculateMetrics exC5 = Except.ok mC5 ∧
    mC5.categoryBreakdown.map (fun e => e.percentage) = [JsNum.nan] ∧
    JsNum.nan ≠ JsNum.fin 0 := by
  refine ⟨?_, by norm_num [mC5], by simp⟩
  norm_num [calculateMetrics, exC5, zeroTx, dayMs, calculateCategoryBreakdown,
    calculateCategoryBreakdownEntries, groupByKeyList, upsert, jsSort, orderedInsertBy,
    jsDivMul100, mC5]

/-- C5 (amended): when totalSpending is non-zero every percentage is the
finite value total / totalSpending × 100; the code has no guard for a
zero totalSpending, in which case the percentage is the non-finite JS
value (NaN for a zero category total) rather than 0.  The date-span
denominators do substitute 1. -/
theorem c5_amended (txs : List CategorizedTransaction) (m : FinancialMetrics)
    (hm : calculateMetrics txs = Except.ok m) (hts : m.totalSpending ≠ 0) :
    ∀ e ∈ m.categoryBreakdown,
      e.percentage = JsNum.fin (e.total / m.totalSpending * 100) := by
  rw [calculateMetrics] at hm
  injection hm with h
  subst h
  intro e he
  simp only at he hts ⊢
  rw [calculateCategoryBreakdown] at he
  have he2 := mem_jsSort.mp he
  rw [calculateCategoryBreakdownEntries] at he2
  rcases List.mem_map.mp he2 with ⟨kg, hkg, rfl⟩
  simp only
  rw [jsDivMul100, if_neg hts]

/-- C5 witness: the amended theorem applied to the two-expense dataset
`exC6` (totalSpending 20) at its first breakdown entry. -/
theorem c5_witness :
    JsNum.fin 50 = JsNum.fin ((10 : ℚ) / 20 * 100) := by
  have h := c5_amended exC6 mC6
    (by norm_num [calculateMetrics, exC6, taxiTx, burgerTx, dayMs,
      calculateCategoryBreakdown, calculateCategoryBreakdownEntries, groupByKeyList,
      upsert, jsSort, orderedInsertBy, jsDivMul100, mC6])
    (by norm_num [mC6])
  have h2 := h ⟨catTransport, 10, JsNum.fin 50, 1⟩ (by norm_num [mC6])
  simpa [mC6] using h2

/-- C6 counterexample: two categories with equal totals keep their
first-appearance order (Transportation before Food & Dining), which
violates the claimed name-ascending tie-break. -/
theorem c6_counterexample :
    calculateMetrics exC6 = Except.ok mC6 ∧
    ¬ specTieBreakNameAsc mC6.categoryBreakdown := by
  constructor
  · norm_num [calculateMetrics, exC6, taxiTx, burgerTx, dayMs,
      calculateCategoryBreakdown, calculateCategoryBreakdownEntries, groupByKeyList,
      upsert, jsSort, orderedInsertBy, jsDivMul100, mC6]
  · intro h
    rcases List.pairwise_cons.mp h with ⟨hrel, -⟩
    have h1 := hrel _ (List.mem_singleton.mpr rfl)
    simp only [mC6] at h1
    rcases h1 with h1 | ⟨-, h1⟩
    · exact absurd h1 (by norm_num)
    · exact absurd h1 (by rw [String.lt_iff_toList_lt]; decide)

/-- C6 (amended): the category breakdown is sorted descending by total and
is the stable sort of the first-appearance-ordered entries: entries of
equal total keep their first-appearance order (the code's comparator
returns 0 on ties and the sort is stable; no name tie-break exists). -/
theorem c6_amended (expenses : List CategorizedTransaction) :
    List.Pairwise (fun a b => b.total ≤ a.total)
      (calculateCategoryBreakdown expenses) ∧
    List.Perm (calculateCategoryBreakdown expenses)
      (calculateCategoryBreakdownEntries expenses) ∧
    ∀ q : ℚ,
      (calculateCategoryBreakdown expenses).filter (fun e => decide (e.total = q)) =
        (calculateCategoryBreakdownEntries expenses).filter
          (fun e => decide (e.total = q)) := by
  refine ⟨?_, ?_, ?_⟩
  · rw [calculateCategoryBreakdown]
    exact (jsSort_pairwise _ (descRatKey_trans (fun e : CategoryBreakdown => e.total))
      (descRatKey_total _) _).imp (fun h => of_decide_eq_true h)
  · rw [calculateCategoryBreakdown]
    exact jsSort_perm _ _
  · intro q
    rw [calculateCategoryBreakdown]
    exact jsSort_filter_eq _ _
      (fun a b ha hb => by
        rw [decide_eq_true_eq] at ha hb ⊢
        rw [ha, hb]) _

/-- The sample description keys are pairwise distinct (used to discharge
map-key comparisons). -/
theorem neNetflixCoffee : descNetflix ≠ descCoffee := by decide

/-- Key disequality. -/
theorem neCoffeeNetflix : descCoffee ≠ descNetflix := by decide

/-- Key disequality. -/
theorem neNetflixYacht : descNetflix ≠ descYacht := by decide

/-- Key disequality. -/
theorem neYachtNetflix : descYacht ≠ descNetflix := by decide

/-- Key disequality. -/
theorem neCoffeeYacht : descCoffee ≠ descYacht := by decide

/-- Key disequality. -/
theorem neYachtCoffee : descYacht ≠ descCoffee := by decide

/-- Key disequality. -/
theorem neRentFurniture : descRent ≠ descFurniture := by decide

/-- Key disequality. -/
theorem neFurnitureRent : descFurniture ≠ descRent := by decide

/-- Category disequality. -/
theorem neTransportFood : catTransport ≠ catFood := by decide

/-- Category disequality. -/
theorem neFoodTransport : catFood ≠ catTransport := by decide

/-- C3: a transaction belonging to a group the Recurring Charge Detector
accepted is never attached to an `anomaly` pattern of the same pass; in
fact every transaction an anomaly pattern attaches has a normalized
description different from that of every transaction attached to a
recurring pattern. -/
theorem c3_recurring_never_anomaly (txs : List CategorizedTransaction)
    (rp : DetectedPattern) (hrp : rp ∈ findRecurringCharges txs)
    (t : CategorizedTransaction) (ht : t ∈ rp.transactions)
    (ap : DetectedPattern)
    (hap : ap ∈ findAnomalies txs (findRecurringCharges txs))
    (u : CategorizedTransaction) (hu : u ∈ ap.transactions) :
    normalizeDescription u.description ≠ normalizeDescription t.description ∧
    t ∉ ap.transactions := by
  have hdesc : normalizeDescription t.description ∈
      recurringDescriptions (findRecurringCharges txs) := by
    rw [recurringDescriptions]
    exact List.mem_flatMap.mpr ⟨rp, hrp, List.mem_map.mpr ⟨t, ht, rfl⟩⟩
  simp only [findAnomalies] at hap
  by_cases h0 :
      ((txs.filter (fun t => !t.isIncome)).map (fun t => t.amount)).length = 0
  · rw [if_pos h0] at hap
    cases hap
  · rw [if_neg h0] at hap
    rcases List.mem_filterMap.mp hap with ⟨t', ht', hemit⟩
    by_cases h1 : t'.isIncome
    · rw [if_pos h1] at hemit; cases hemit
    · rw [if_neg h1] at hemit
      by_cases h2 : (recurringDescriptions (findRecurringCharges txs)).contains
          (normalizeDescription t'.description)
      · rw [if_pos h2] at hemit; cases hemit
      · rw [if_neg h2] at hemit
        by_cases h3 : exceedsThreeSigma t'.amount
            (((txs.filter (fun t => !t.isIncome)).map (fun t => t.amount)).sum /
              (((txs.filter (fun t => !t.isIncome)).map (fun t => t.amount)).length : ℚ))
            ((((txs.filter (fun t => !t.isIncome)).map (fun t => t.amount)).map
                (fun amt =>
                  (amt -
                      ((txs.filter (fun t => !t.isIncome)).map (fun t => t.amount)).sum /
                        (((txs.filter (fun t => !t.isIncome)).map
                            (fun t => t.amount)).length : ℚ)) ^ 2)).sum /
              (((txs.filter (fun t => !t.isIncome)).map (fun t => t.amount)).length : ℚ))
        · rw [if_pos h3] at hemit
          have hap' := Option.some.inj hemit
          have htrans : ap.transactions = [t'] := by rw [← hap']
          have hut' : u = t' := by
            rw [htrans] at hu
            exact List.mem_singleton.mp hu
          have hne : normalizeDescription u.description ≠
              normalizeDescription t.description := by
            intro heq
            apply h2
            rw [← hut', heq]
            exact List.elem_eq_true_of_mem hdesc
          refine ⟨hne, ?_⟩
          intro htmem
          rw [htrans] at htmem
          have : t = t' := List.mem_singleton.mp htmem
          exact hne (by rw [hut', ← this])
        · rw [if_neg h3] at hemit; cases hemit

/-- C10: the Recurring Charge Detector does not filter by isIncome — on an
income-only monthly salary dataset the orchestrator emits exactly one
`recurring_charge` pattern attaching the three income transactions, and
the salary's normalized description joins the anomaly exclusion set. -/
theorem c10_income_recurring :
    (∀ t ∈ salaryTxs, t.isIncome = true) ∧
    detectPatterns salaryTxs = [salaryPattern] ∧
    salaryPattern.transactions = salaryTxs ∧
    salaryPattern.type = PatternType.recurring_charge ∧
    keySalary ∈ recurringDescriptions (findRecurringCharges salaryTxs) := by
  refine ⟨by norm_num [salaryTxs, salaryTx1, salaryTx2, salaryTx3], ?_, rfl, rfl, ?_⟩
  · norm_num [detectPatterns, findRecurringCharges, recurEmit, findAnomalies,
      recurringDescriptions, findSpendingSpikes, spikeEmit, categoryMonthlyTotals,
      findTrends, trendMonthlyTotals, sortedTrendMonths, groupByKeyList, upsert, addAt,
      jsSort, orderedInsertBy, diffs, maxOfList, lexLe, exceedsThreeSigma,
      salaryTxs, salaryTx1, salaryTx2, salaryTx3, dayMs, normSalary, salaryPattern,
      List.filterMap_cons, List.forall_mem_cons]
  · norm_num [findRecurringCharges, recurEmit, recurringDescriptions, groupByKeyList,
      upsert, jsSort, orderedInsertBy, diffs, salaryTxs, salaryTx1, salaryTx2,
      salaryTx3, dayMs, normSalary, List.filterMap_cons]

/-- C3 witness: in the mixed dataset `exC3` the recurring netflix pair is
accepted, the yacht purchase is flagged as the only anomaly, and the
theorem yields that no netflix transaction can be attached to it. -/
theorem c3_witness :
    normalizeDescription yachtTx.description ≠
      normalizeDescription netflixTx1.description ∧
    netflixTx1 ∉ yachtPattern.transactions := by
  refine c3_recurring_never_anomaly exC3 netflixPattern ?_ netflixTx1 ?_
    yachtPattern ?_ yachtTx ?_
  · norm_num [findRecurringCharges, recurEmit, groupByKeyList, upsert, jsSort,
      orderedInsertBy, diffs, exC3, netflixTx1, netflixTx2, coffeeTx, yachtTx, dayMs,
      normNetflix, normCoffee, normYacht, neNetflixCoffee, neCoffeeNetflix,
      neNetflixYacht, neYachtNetflix, neCoffeeYacht, neYachtCoffee,
      List.filterMap_cons, netflixPattern, exC7, List.replicate_succ,
      List.replicate_zero]
  · norm_num [netflixPattern, exC7]
  · norm_num [findAnomalies, findRecurringCharges, recurEmit, recurringDescriptions,
      groupByKeyList, upsert, jsSort, orderedInsertBy, diffs, exceedsThreeSigma,
      exC3, netflixTx1, netflixTx2, coffeeTx, yachtTx, dayMs,
      normNetflix, normCoffee, normYacht, neNetflixCoffee, neCoffeeNetflix,
      neNetflixYacht, neYachtNetflix, neCoffeeYacht, neYachtCoffee,
      List.filterMap_cons, yachtPattern, List.replicate_succ, List.replicate_zero]
  · norm_num [yachtPattern]

/-- C8: for every category with at least two observed monthly totals, the
Spending Spike Detector emits exactly one `spending_spike` pattern for
that category exactly when the maximum monthly total exceeds 1.5 × the
mean of the monthly totals, with impact max − mean, severity high exactly
when the impact exceeds 500, and no transactions attached; the detector
receives no recurring-charge information (its input is the raw
transaction list only). -/
theorem c8_spike (txs : List CategorizedTransaction) (cat : String)
    (totals : List ℚ)
    (hmem : (cat, totals) ∈ categoryMonthlyTotals txs)
    (hlen : 2 ≤ totals.length) :
    (findSpendingSpikes txs).filter (fun p => spikeTag p cat) =
      if (totals.sum / (totals.length : ℚ)) * (3 / 2) < maxOfList totals then
        [⟨PatternType.spending_spike,
          PatternDescr.spike cat (maxOfList totals)
            (totals.sum / (totals.length : ℚ)),
          [],
          if 500 < maxOfList totals - totals.sum / (totals.length : ℚ)
            then Severity.high else Severity.medium,
          maxOfList totals - totals.sum / (totals.length : ℚ)⟩]
      else [] := by
  have htag : ∀ k v g, spikeEmit k v = some g →
      ∀ k', spikeTag g k' = true ↔ k' = k := by
    intro k v g hg k'
    rw [spikeEmit] at hg
    by_cases h1 : v.length < 2
    · rw [if_pos h1] at hg; cases hg
    · rw [if_neg h1] at hg
      by_cases h2 : (v.sum / (v.length : ℚ)) * (3 / 2) < maxOfList v
      · simp only [if_pos h2] at hg
        injection hg with h
        subst h
        show (k == k') = true ↔ k' = k
        rw [beq_iff_eq]
        exact eq_comm
      · simp only [if_neg h2] at hg; cases hg
  have h := filterMap_key_filter spikeEmit spikeTag htag
    (categoryMonthlyTotals txs) (nodup_keys_categoryMonthlyTotals txs)
    cat totals hmem
  rw [findSpendingSpikes, h, spikeEmit, if_neg (by omega)]
  by_cases h2 : (totals.sum / (totals.length : ℚ)) * (3 / 2) < maxOfList totals
  · simp only [if_pos h2]; rfl
  · simp only [if_neg h2]; rfl

/-- C8 witness: Housing monthly totals [100, 100, 100, 400] yield exactly
the one spike with mean 175, impact 225 and severity medium, while the
rent series is simultaneously an accepted recurring charge (no
exclusion). -/
theorem c8_witness :
    (findSpendingSpikes exC8).filter (fun p => spikeTag p catHousing) = [spikeC8] ∧
    rentPattern ∈ findRecurringCharges exC8 := by
  constructor
  · have h := c8_spike exC8 catHousing totalsC8
      (by norm_num [categoryMonthlyTotals, groupByKeyList, upsert, exC8,
        rentTx1, rentTx2, rentTx3, rentTx4, furnitureTx, dayMs, totalsC8])
      (by norm_num [totalsC8])
    rw [h]
    norm_num [totalsC8, maxOfList, max_def, spikeC8]
  · norm_num [findRecurringCharges, recurEmit, groupByKeyList, upsert, jsSort,
      orderedInsertBy, diffs, exC8, rentTx1, rentTx2, rentTx3, rentTx4, furnitureTx,
      dayMs, normRent, normFurniture, neRentFurniture, neFurnitureRent,
      List.filterMap_cons, rentPattern]

/-- C9: the Trend Detector emits nothing with fewer than two distinct
expense months; otherwise, writing `f` for the chronologically first and
`rest.getLastD f` for the chronologically last month entry of the sorted
month list (the bounds conjunct states they are first and last), it emits
exactly one `trend` pattern when |percentChange| > 15 and none otherwise,
with direction increasing exactly for a positive change, severity high
exactly when |percentChange| > 30, and impact |last − first|
(percentChange = (last − first) / first × 100, first ≠ 0). -/
theorem c9_trend (txs : List CategorizedTransaction)
    (f : (ℤ × ℤ) × ℚ) (rest : List ((ℤ × ℤ) × ℚ)) :
    ((trendMonthlyTotals txs).length < 2 → findTrends txs = []) ∧
    (sortedTrendMonths txs = f :: rest → 2 ≤ (trendMonthlyTotals txs).length →
      f.2 ≠ 0 →
      (∀ x ∈ trendMonthlyTotals txs,
        lexLe f.1 x.1 = true ∧ lexLe x.1 (rest.getLastD f).1 = true) ∧
      findTrends txs =
        if 15 < |((rest.getLastD f).2 - f.2) / f.2 * 100| then
          [⟨PatternType.trend,
            PatternDescr.trendDir
              (if 0 < (rest.getLastD f).2 - f.2 then dirIncreasing
               else dirDecreasing)
              (JsNum.fin |((rest.getLastD f).2 - f.2) / f.2 * 100|),
            [],
            if 30 < |((rest.getLastD f).2 - f.2) / f.2 * 100|
              then Severity.high else Severity.medium,
            |(rest.getLastD f).2 - f.2|⟩]
        else []) := by
  constructor
  · intro hlt
    rw [findTrends, if_pos hlt]
  · intro hs hlen hf0
    have hpw : (f :: rest).Pairwise
        (fun a b : (ℤ × ℤ) × ℚ => lexLe a.1 b.1 = true) := by
      have hsrt := jsSort_pairwise (fun a b : (ℤ × ℤ) × ℚ => lexLe a.1 b.1)
        (fun a b c hab hbc => lexLe_trans a.1 b.1 c.1 hab hbc)
        (fun a b => lexLe_total a.1 b.1) (trendMonthlyTotals txs)
      rw [← sortedTrendMonths, hs] at hsrt
      exact hsrt
    constructor
    · intro x hx
      have hxs : x ∈ f :: rest := by
        rw [← hs, sortedTrendMonths]
        exact mem_jsSort.mpr hx
      constructor
      · rcases List.mem_cons.mp hxs with h | hmem
        · rw [h]; exact lexLe_refl f.1
        · exact List.rel_of_pairwise_cons hpw hmem
      · exact pairwise_rel_getLastD
          (fun a b : (ℤ × ℤ) × ℚ => lexLe a.1 b.1 = true)
          (fun a b c hab hbc => lexLe_trans a.1 b.1 c.1 hab hbc)
          (fun a => lexLe_refl a.1) f rest hpw x hxs
    · rw [findTrends, if_neg (by omega), hs]
      simp only [if_neg hf0]

/-- C9 witness: month totals 1000 then 1300 give percentChange 30, an
increasing trend of severity medium and impact 300. -/
theorem c9_witness : findTrends exC9 = [trendC9] := by
  have h := (c9_trend exC9 ((2024, 0), 1000) [((2024, 1), 1300)]).2
    (by norm_num [sortedTrendMonths, trendMonthlyTotals, addAt, jsSort,
      orderedInsertBy, lexLe, exC9, trendTx1, trendTx2, dayMs])
    (by norm_num [trendMonthlyTotals, addAt, exC9, trendTx1, trendTx2, dayMs])
    (by norm_num)
  rw [h.2]
  norm_num [trendC9, List.getLastD_cons, List.getLastD_nil]

/-- C4 counterexample: on a 15-day dataset with totalSpending 100 the code
returns averageMonthly = 200 (it divides by the fractional month count
0.5), while the claim's formula totalSpending / max(1, dateSpanDays/30)
with dateSpanDays = max(1, 15) gives 100. -/
theorem c4_counterexample :
    calculateMetrics exC4 = Except.ok mC4 ∧
    mC4.averageMonthly = 200 ∧
    ¬ (mC4.averageMonthly = mC4.totalSpending / max 1 (max 1 (15 : ℚ) / 30)) := by
  refine ⟨?_, by norm_num [mC4], by norm_num [mC4, max_def]⟩
  norm_num [calculateMetrics, exC4, groceriesTx, marketTx, dayMs,
    calculateCategoryBreakdown, calculateCategoryBreakdownEntries, groupByKeyList,
    upsert, jsSort, orderedInsertBy, jsDivMul100, mC4, min_def, max_def]

/-- C4 (amended): with daysDiff the exact (possibly fractional) day span
(max date − min date) / 86400000 over all transactions, the calculator
divides totalSpending by `daysDiff` with 1 substituted only when the span
is exactly 0, and by `daysDiff / 30` with 1 substituted only when that is
exactly 0 — not by max(1, ·) of either quantity; a single-instant dataset
therefore still uses the divisor 1. -/
theorem c4_amended (txs : List CategorizedTransaction) (m : FinancialMetrics)
    (d : ℤ) (ds : List ℤ) (dmin dmax : ℤ)
    (htimes : txs.map (fun t => t.date.time) = d :: ds)
    (hm : calculateMetrics txs = Except.ok m)
    (hminMem : dmin ∈ d :: ds) (hminLe : ∀ s ∈ d :: ds, dmin ≤ s)
    (hmaxMem : dmax ∈ d :: ds) (hmaxGe : ∀ s ∈ d :: ds, s ≤ dmax) :
    m.averageDaily = m.totalSpending /
      (if ((dmax - dmin : ℤ) : ℚ) / 86400000 = 0 then 1
       else ((dmax - dmin : ℤ) : ℚ) / 86400000) ∧
    m.averageMonthly = m.totalSpending /
      (if ((dmax - dmin : ℤ) : ℚ) / 86400000 / 30 = 0 then 1
       else ((dmax - dmin : ℤ) : ℚ) / 86400000 / 30) := by
  have hdmin : ds.foldl min d = dmin :=
    le_antisymm (foldl_min_le ds d dmin hminMem) (hminLe _ (foldl_min_mem ds d))
  have hdmax : ds.foldl max d = dmax :=
    le_antisymm (hmaxGe _ (foldl_max_mem ds d)) (le_foldl_max ds d dmax hmaxMem)
  rw [calculateMetrics, htimes] at hm
  injection hm with h
  subst h
  constructor <;> simp only [hdmin, hdmax, Option.map_some']

/-- C4 witness: the amended theorem applied to the 15-day dataset `exC4`
(span 1296000000 ms = 15 days): averageDaily divides by 15 and
averageMonthly divides by 1/2. -/
theorem c4_witness :
    mC4.averageDaily = mC4.totalSpending /
      (if ((1296000000 - 0 : ℤ) : ℚ) / 86400000 = 0 then 1
       else ((1296000000 - 0 : ℤ) : ℚ) / 86400000) ∧
    mC4.averageMonthly = mC4.totalSpending /
      (if ((1296000000 - 0 : ℤ) : ℚ) / 86400000 / 30 = 0 then 1
       else ((1296000000 - 0 : ℤ) : ℚ) / 86400000 / 30) :=
  c4_amended exC4 mC4 0 [1296000000] 0 1296000000
    (by norm_num [exC4, groceriesTx, marketTx, dayMs])
    (by norm_num [calculateMetrics, exC4, groceriesTx, marketTx, dayMs,
      calculateCategoryBreakdown, calculateCategoryBreakdownEntries, groupByKeyList,
      upsert, jsSort, orderedInsertBy, jsDivMul100, mC4, min_def, max_def])
    (by norm_num) (by norm_num [List.forall_mem_cons])
    (by norm_num) (by norm_num [List.forall_mem_cons])

/-- C7: for every normalized-description group with at least two members,
the Recurring Charge Detector emits exactly one `recurring_charge`
pattern for that group's key exactly when every member's amount deviates
from the group mean μ by strictly less than μ/10 and the average
consecutive day-gap of the ascending-sorted dates — equivalently the
whole span (max − min) divided by (size − 1) days — lies in [25, 35]; the
pattern attaches the full group, has impact μ × 12, and severity medium
exactly when μ > 50 (low otherwise). -/
theorem c7_recurring (txs : List CategorizedTransaction) (k : String)
    (g : List CategorizedTransaction) (μ gap : ℚ) (dmin dmax : ℤ)
    (hmem : (k, g) ∈ groupByKeyList (fun t => normalizeDescription t.description) txs)
    (hlen : 2 ≤ g.length)
    (hμ : μ = (g.map (fun t => t.amount)).sum / (g.length : ℚ))
    (hminMem : dmin ∈ g.map (fun t => t.date.time))
    (hminLe : ∀ s ∈ g.map (fun t => t.date.time), dmin ≤ s)
    (hmaxMem : dmax ∈ g.map (fun t => t.date.time))
    (hmaxGe : ∀ s ∈ g.map (fun t => t.date.time), s ≤ dmax)
    (hgap : gap = ((dmax - dmin : ℤ) : ℚ) / (((g.length - 1 : ℕ) : ℚ) * 86400000)) :
    (findRecurringCharges txs).filter (fun p => recurTag p k) =
      if (∀ t ∈ g, |t.amount - μ| < μ * (1 / 10)) ∧ 25 ≤ gap ∧ gap ≤ 35 then
        [⟨PatternType.recurring_charge, PatternDescr.recurring k μ, g,
          if 50 < μ then Severity.medium else Severity.low, μ * 12⟩]
      else [] := by
  have htag : ∀ k' v p, recurEmit k' v = some p →
      ∀ k2, recurTag p k2 = true ↔ k2 = k' := by
    intro k' v p hp k2
    rw [recurEmit] at hp
    by_cases h1 : 2 ≤ v.length
    · rw [if_pos h1] at hp
      by_cases h2 : (v.map (fun t => t.amount)).all
          (fun amt =>
            decide (|amt - (v.map (fun t => t.amount)).sum /
                ((v.map (fun t => t.amount)).length : ℚ)| <
              (v.map (fun t => t.amount)).sum /
                ((v.map (fun t => t.amount)).length : ℚ) * (1 / 10)))
      · simp only [if_pos h2] at hp
        by_cases h3 : 25 ≤
              (((diffs (jsSort (fun a b => decide (a ≤ b))
                  (v.map (fun t => t.date.time)))).sum : ℤ) : ℚ) /
                ((diffs (jsSort (fun a b => decide (a ≤ b))
                  (v.map (fun t => t.date.time)))).length : ℚ) / 86400000 ∧
            (((diffs (jsSort (fun a b => decide (a ≤ b))
                  (v.map (fun t => t.date.time)))).sum : ℤ) : ℚ) /
                ((diffs (jsSort (fun a b => decide (a ≤ b))
                  (v.map (fun t => t.date.time)))).length : ℚ) / 86400000 ≤ 35
        · rw [if_pos h3] at hp
          injection hp with h
          subst h
          show (k' == k2) = true ↔ k2 = k'
          rw [beq_iff_eq]
          exact eq_comm
        · rw [if_neg h3] at hp; cases hp
      · simp only [if_neg h2] at hp; cases hp
    · rw [if_neg h1] at hp; cases hp
  have hfilter := filterMap_key_filter recurEmit recurTag htag
    (groupByKeyList (fun t => normalizeDescription t.description) txs)
    (nodup_keys_groupByKeyList _ txs) k g hmem
  rw [findRecurringCharges, hfilter]
  simp only [recurEmit]
  rw [if_pos hlen]
  have havg : (g.map (fun t => t.amount)).sum /
      ((g.map (fun t => t.amount)).length : ℚ) = μ := by
    rw [hμ, List.length_map]
  rw [havg]
  obtain ⟨d', ds', htimes'⟩ :
      ∃ d' ds', g.map (fun t => t.date.time) = d' :: ds' := by
    cases hgm : g.map (fun t => t.date.time) with
    | nil =>
      exfalso
      have := congrArg List.length hgm
      rw [List.length_map, List.length_nil] at this
      omega
    | cons a l => exact ⟨a, l, rfl⟩
  obtain ⟨x, xs, hs⟩ :
      ∃ x xs, jsSort (fun a b => decide (a ≤ b))
        (g.map (fun t => t.date.time)) = x :: xs := by
    cases hsrt : jsSort (fun a b => decide (a ≤ b))
        (g.map (fun t => t.date.time)) with
    | nil =>
      exfalso
      have hl := (jsSort_perm (fun a b => decide (a ≤ b))
        (g.map (fun t => t.date.time))).length_eq
      rw [hsrt, List.length_map, List.length_nil] at hl
      omega
    | cons x xs => exact ⟨x, xs, rfl⟩
  have hperm : List.Perm (x :: xs) (d' :: ds') := by
    rw [← hs, ← htimes']
    exact jsSort_perm _ _
  have hpw : (x :: xs).Pairwise (fun p q => p ≤ q) := by
    have hsrt := jsSort_pairwise (fun a b : ℤ => decide (a ≤ b))
      ascInt_trans ascInt_total (g.map (fun t => t.date.time))
    rw [hs] at hsrt
    exact hsrt.imp (fun h => of_decide_eq_true h)
  rw [htimes'] at hminMem hminLe hmaxMem hmaxGe
  have hdmin : ds'.foldl min d' = dmin :=
    le_antisymm (foldl_min_le ds' d' dmin hminMem)
      (hminLe _ (foldl_min_mem ds' d'))
  have hdmax : ds'.foldl max d' = dmax :=
    le_antisymm (hmaxGe _ (foldl_max_mem ds' d'))
      (le_foldl_max ds' d' dmax hmaxMem)
  have hsum : (diffs (x :: xs)).sum = dmax - dmin := by
    rw [diffs_sum x xs, sorted_getLastD_max hpw hperm,
      sorted_head_min hpw hperm, hdmin, hdmax]
  have hlen2 : (diffs (x :: xs)).length = g.length - 1 := by
    rw [diffs_length]
    have hl := hperm.length_eq
    rw [← htimes'] at hl
    rw [hl, List.length_map]
  rw [hs, hsum, hlen2, div_div, ← hgap]
  by_cases hA : ∀ t ∈ g, |t.amount - μ| < μ * (1 / 10)
  · have hA' : (g.map (fun t => t.amount)).all
        (fun amt => decide (|amt - μ| < μ * (1 / 10))) = true := by
      rw [List.all_eq_true]
      intro amt hamt
      rcases List.mem_map.mp hamt with ⟨t, ht, rfl⟩
      exact decide_eq_true (hA t ht)
    rw [if_pos hA']
    by_cases hB : 25 ≤ gap ∧ gap ≤ 35
    · have hC : (∀ t ∈ g, |t.amount - μ| < μ * (1 / 10)) ∧
          25 ≤ gap ∧ gap ≤ 35 := ⟨hA, hB⟩
      rw [if_pos hB, if_pos hC]
      rfl
    · have hC : ¬ ((∀ t ∈ g, |t.amount - μ| < μ * (1 / 10)) ∧
          25 ≤ gap ∧ gap ≤ 35) := fun hc => hB hc.2
      rw [if_neg hB, if_neg hC]
      rfl
  · have hA' : ¬ ((g.map (fun t => t.amount)).all
        (fun amt => decide (|amt - μ| < μ * (1 / 10))) = true) := by
      intro hall
      apply hA
      intro t ht
      exact of_decide_eq_true
        (List.all_eq_true.mp hall _ (List.mem_map.mpr ⟨t, ht, rfl⟩))
    have hC : ¬ ((∀ t ∈ g, |t.amount - μ| < μ * (1 / 10)) ∧
        25 ≤ gap ∧ gap ≤ 35) := fun hc => hA hc.1
    rw [if_neg hA', if_neg hC]
    rfl

/-- C7 witness: the two netflix charges (amount 10, 30 days apart) form a
group with mean 10 and average gap 30, so exactly one recurring pattern is
emitted: severity low (10 ≤ 50), impact 120, the pair attached. -/
theorem c7_witness :
    (findRecurringCharges exC7).filter (fun p => recurTag p descNetflix) =
      [netflixPattern] := by
  have h := c7_recurring exC7 descNetflix exC7 10 30 0 2592000000
    (by norm_num [groupByKeyList, upsert, exC7, netflixTx1, netflixTx2, dayMs,
      normNetflix])
    (by norm_num [exC7])
    (by norm_num [exC7, netflixTx1, netflixTx2])
    (by norm_num [exC7, netflixTx1, netflixTx2, dayMs])
    (by norm_num [exC7, netflixTx1, netflixTx2, dayMs, List.forall_mem_cons])
    (by norm_num [exC7, netflixTx1, netflixTx2, dayMs])
    (by norm_num [exC7, netflixTx1, netflixTx2, dayMs, List.forall_mem_cons])
    (by norm_num [exC7])
  rw [h]
  norm_num [exC7, netflixTx1, netflixTx2, netflixPattern, List.forall_mem_cons]
